import Mathlib

/-!
Verification development for the frieda schema/type-resolution and
data-access code.

The definitions below are shallow embeddings of the TypeScript source:

* `src/unnamed/part_001` — the settings-aware resolver
  (`getFieldCastType`, `getFieldKnownMySQLType`, `hasColumnCommentAnnotation`,
  `getParenthesizedArgs`, `getMatchAmong`).
* `src/src/lib/acli/field.ts` — the `Field` class (comment-directive
  scanning, `castType`, `javascriptType`).
* `src/src/lib/api/db-classes.ts` — `BaseDb.execute` and the `ModelDb`
  operations (`findMany` select validation, `count`, `countBigInt`,
  `create` primary-key result).

Raw strings coming from `SHOW FULL COLUMNS` rows are modelled as `String`;
the JavaScript regular expressions of the source are modelled as explicit
scanners over `List Char` with the same matching semantics (leftmost match,
greedy dot-star confined to one line, case-insensitive keyword comparison).
The database transport is modelled as an explicit parameter carrying the
result (rows / insert id / error) the driver would produce.
-/

set_option maxRecDepth 2000

namespace Frieda

/-- ASCII portion of the JavaScript regex class `\s` (space, tab, line feed,
carriage return, vertical tab, form feed), used by every source pattern. -/
def isSpaceChar (c : Char) : Bool :=
  c == ' ' || c == '\t' || c == '\n' || c == '\r' || c.toNat == 11 || c.toNat == 12

/-- JavaScript regex word character (`\w`): ASCII letters, digits, underscore.
Word boundaries `\b` in the source patterns separate maximal `\w` runs. -/
def isWordChar (c : Char) : Bool :=
  c.isAlpha || c.isDigit || c == '_'

/-- JavaScript line terminators relevant here; the regex `.` does not match
them, so a greedy `(.*)` group is confined to the current line. -/
def isLineTerm (c : Char) : Bool := c == '\n' || c == '\r'

/-- Case-insensitive prefix test: does `cs` start with the all-lowercase
pattern `p` (comparing each character of `cs` lowercased)? -/
def startsWithLower : List Char → List Char → Bool
  | [], _ => true
  | _ :: _, [] => false
  | p :: ps, c :: cs => p == c.toLower && startsWithLower ps cs

/-- Maximal runs of word characters of a string (the substrings a
word-boundary-delimited alternation can match). -/
def wordTokensAux : List Char → List Char → List (List Char)
  | [], acc => if acc.isEmpty then [] else [acc.reverse]
  | c :: cs, acc =>
    if isWordChar c then wordTokensAux cs (c :: acc)
    else if acc.isEmpty then wordTokensAux cs []
    else acc.reverse :: wordTokensAux cs []

def lowerStr (cs : List Char) : String := String.mk (cs.map Char.toLower)

/-- The lowercased word tokens of `s`, in order of appearance. -/
def wordTokens (s : String) : List String := (wordTokensAux s.toList []).map lowerStr

/-- Modelled from the spec: the fixed vocabulary of recognized MySQL base
type names (the constants modules defining `MYSQL_TYPES` /
`KNOWN_MYSQL_TYPES` are not under `src/`); the list follows spec section 4.2
and the README type tables, all lowercase. Only membership of the names the
claims mention matters below; extraction semantics come from the source. -/
def MYSQL_TYPES : List String :=
  ["bigint", "tinyint", "bool", "boolean", "smallint", "mediumint", "int",
   "integer", "float", "double", "real", "decimal", "numeric", "bit",
   "datetime", "timestamp", "date", "year", "time", "json", "enum", "set",
   "char", "binary", "varchar", "varbinary", "tinyblob", "tinytext", "blob",
   "text", "mediumblob", "mediumtext", "longblob", "longtext"]

/-- `getMatchAmong` + first-match extraction
(`src/unnamed/part_001` lines 173-181 and 280-291, and
`Field.mysqlBaseType` in `src/src/lib/acli/field.ts` lines 63-70):
the regex `\b(type1|type2|...)\b` with flags `gi` applied to the declared
type; the first whole-word occurrence of a vocabulary name, lowercased.
Because every vocabulary entry is a pure word, a whole-word match is exactly
a maximal word token equal (case-insensitively) to an entry, and the first
regex match is the leftmost such token. -/
def extractBaseType (typeStr : String) : Option String :=
  (wordTokens typeStr).find? (fun t => MYSQL_TYPES.contains t)

/-- One row of `SHOW FULL COLUMNS`, as consumed by both resolvers
(`DatabaseColumnRow` / `ColumnRow` in the source). Field names are prefixed
with `col` because the raw keys (`Field`, `Type`, ...) collide with Lean
keywords: `colField` = `Field`, `colType` = `Type`, `colNull` = `Null`,
`colKey` = `Key`, `colDefault` = `Default`, `colExtra` = `Extra`,
`colComment` = `Comment`. -/
structure ColumnRow where
  colField : String
  colType : String
  colNull : String
  colKey : String
  colDefault : Option String
  colExtra : String
  colComment : String
deriving DecidableEq

/-- The cast kinds appearing in either resolver. `src/unnamed/part_001`
additionally uses the `enum` member; `src/src/lib/acli/field.ts` never
produces it. -/
inductive CastType where
  | int
  | float
  | boolean
  | bigint
  | date
  | string
  | json
  | set
  | enum
deriving DecidableEq

/-- `Partial<FullSettings>` restricted to the two flags the resolver reads;
`none` models an absent (undefined) flag. -/
structure PartialSettings where
  typeBigIntAsString : Option Bool
  typeTinyIntOneAsBoolean : Option Bool
deriving DecidableEq

/-- `DEFAULT_JSON_FIELD_TYPE` (`src/src/lib/app/constants.ts` line 4). -/
def DEFAULT_JSON_FIELD_TYPE : String := "unknown"

/-- JavaScript `String.prototype.trim` on the strings involved here. -/
def jsTrim (s : String) : String :=
  String.mk (((s.toList.dropWhile (fun c => isSpaceChar c)).reverse.dropWhile
    (fun c => isSpaceChar c)).reverse)

/-- Greedy close-paren search for `(.*)\)(\s|$)`: among the positions of `)`
on the current line after the opening paren, the last one that is followed by
whitespace or the end of the string; returns the characters before it. -/
def closeParenFollowed (rest : List Char) : Option (List Char) :=
  let seg := rest.takeWhile (fun c => !(isLineTerm c))
  let valid := (List.range seg.length).filter (fun j =>
    seg.getD j ' ' == ')' &&
    (j + 1 == rest.length || isSpaceChar (rest.getD (j + 1) 'x')))
  valid.getLast?.map (fun j => rest.take j)

/-- Greedy close-paren search for `(.*)\)` with no follow condition (used by
the comment-directive pattern): the last `)` on the current line. -/
def closeParenAny (rest : List Char) : Option (List Char) :=
  let seg := rest.takeWhile (fun c => !(isLineTerm c))
  let valid := (List.range seg.length).filter (fun j => seg.getD j ' ' == ')')
  valid.getLast?.map (fun j => rest.take j)

/-- One attempt of the `getParenthesizedArgs` pattern at the current
position: prefix (case-insensitive), `\s*`, `\(`, greedy group, `\)(\s|$)`. -/
def gpaTryHere (pfx : List Char) (cs : List Char) : Option (List Char) :=
  if startsWithLower pfx cs then
    match (cs.drop pfx.length).dropWhile (fun c => isSpaceChar c) with
    | '(' :: rest => closeParenFollowed rest
    | _ => none
  else none

/-- Scan for the leftmost match of the `getParenthesizedArgs` pattern; the
boolean records whether the current position may start a match (start of
string, or the previous character was whitespace — the `(\s|^)` group). -/
def gpaAux (pfx : List Char) : List Char → Bool → Option (List Char)
  | [], _ => none
  | c :: cs, canStart =>
    match (if canStart then gpaTryHere pfx (c :: cs) else none) with
    | some r => some r
    | none => gpaAux pfx cs (isSpaceChar c)

/-- `getParenthesizedArgs(source, prefix)`
(`src/unnamed/part_001` lines 271-278; same helper in
`src/src/lib/acli/utils.ts`, called by `field.ts`): the second group of the
first match of `(\s|^)prefix\s*\((.*)\)(\s|$)` with flag `i`, else `""`. -/
def getParenthesizedArgs (source : String) (pfx : String) : String :=
  match gpaAux pfx.toList source.toList true with
  | some r => String.mk r
  | none => ""

/-- One attempt of the `hasColumnCommentAnnotation` pattern at the current
position: `@`, the keyword (case-insensitive), then whitespace, `(` or the
end of the string. -/
def hcaTryHere (kw : List Char) (cs : List Char) : Bool :=
  match cs with
  | '@' :: rest =>
    startsWithLower kw rest &&
    (match rest.drop kw.length with
     | [] => true
     | c :: _ => isSpaceChar c || c == '(')
  | _ => false

def hcaAux (kw : List Char) : List Char → Bool → Bool
  | [], _ => false
  | c :: cs, canStart =>
    (canStart && hcaTryHere kw (c :: cs)) || hcaAux kw cs (isSpaceChar c)

/-- `hasColumnCommentAnnotation(annotation, col)`
(`src/unnamed/part_001` lines 64-70): tests the column comment against
`(\s|^)@annotation(\s|\(|$)` with flag `i`. (The source name ends in a word
that is reserved for this file, hence `Directive`.) -/
def hasColumnCommentDirective (kw : String) (col : ColumnRow) : Bool :=
  hcaAux kw.toList col.colComment.toList true

/-- `getFieldCastType(col, knownMySQLType, settings)`
(`src/unnamed/part_001` lines 72-167), transcribed branch by branch. -/
def getFieldCastType (col : ColumnRow) (knownMySQLType : Option String)
    (settings : PartialSettings) : CastType :=
  match knownMySQLType with
  | none => CastType.string
  | some t =>
    if t = "json" then CastType.json
    else if t = "bigint" then
      if settings.typeBigIntAsString = some false then CastType.bigint
      else if hasColumnCommentDirective "bigint" col then CastType.bigint
      else CastType.string
    else if t = "tinyint" ∧ jsTrim (getParenthesizedArgs col.colType t) = "1" then
      if settings.typeTinyIntOneAsBoolean = some false then CastType.int
      else CastType.boolean
    else if t ∈ ["tinyint", "int", "integer", "smallint", "mediumint"] then CastType.int
    else if t ∈ ["float", "double", "real", "decimal", "numeric"] then CastType.float
    else if t ∈ ["date", "datetime", "timestamp"] then CastType.date
    else if t = "set" then CastType.set
    else if t = "enum" then CastType.enum
    else if t = "year" then CastType.int
    else CastType.string

/-- `getFieldKnownMySQLType(column)` (`src/unnamed/part_001` lines 173-181). -/
def getFieldKnownMySQLType (col : ColumnRow) : Option String :=
  extractBaseType col.colType

/-- The cast-type wiring of `parseFieldDefinition`
(`src/unnamed/part_001` lines 186-231): extraction feeds the resolver. -/
def resolvedCastType (col : ColumnRow) (settings : PartialSettings) : CastType :=
  getFieldCastType col (getFieldKnownMySQLType col) settings

/-- A parsed comment directive of the `Field` class
(`ParsedAnnotation` in `src/src/lib/acli/field.ts`, minus the unused
`fullAnnotation` text): `kind` is the lowercased keyword (group 1),
`typeArgument` the optional parenthesized argument (group 2), `none` when
the group did not participate in the match. (Source names containing the
word "Annotation" are reserved in this file, hence "Directive".) -/
structure ParsedDirective where
  kind : String
  typeArgument : Option String
deriving DecidableEq

/-- The alternation `(bigint|enum|set|json)` in source order. -/
def directiveKinds : List String := ["bigint", "enum", "set", "json"]

/-- Try each keyword alternative (case-insensitively) at the current
position; the alternatives have pairwise distinct first letters, so regex
alternation order and this first-match loop agree. -/
def matchKind : List String → List Char → Option (String × List Char)
  | [], _ => none
  | k :: ks, cs =>
    if startsWithLower k.toList cs then some (k, cs.drop k.length)
    else matchKind ks cs

/-- Scan of `Field.typeAnnotations` (`src/src/lib/acli/field.ts` lines
72-84): all matches of `(?:^|\s+)@(bigint|enum|set|json)(?:\((.*)\))?` with
flags `gi` over the comment, in order. The boolean records whether the
current position can start a match (start of string or preceded by
whitespace); after a match the scan resumes right after the consumed text.
`fuel` only bounds the recursion; one character is consumed per step, so
`length + 1` fuel never runs out. -/
def scanDirectivesAux : Nat → Bool → List Char → List ParsedDirective
  | 0, _, _ => []
  | _ + 1, _, [] => []
  | fuel + 1, canStart, c :: cs =>
    if canStart && c == '@' then
      match matchKind directiveKinds cs with
      | some (k, afterKind) =>
        match afterKind with
        | '(' :: rest =>
          match closeParenAny rest with
          | some arg =>
            ⟨k, some (String.mk arg)⟩ :: scanDirectivesAux fuel false (rest.drop (arg.length + 1))
          | none => ⟨k, none⟩ :: scanDirectivesAux fuel false afterKind
        | _ => ⟨k, none⟩ :: scanDirectivesAux fuel false afterKind
      | none => scanDirectivesAux fuel (isSpaceChar c) cs
    else scanDirectivesAux fuel (isSpaceChar c) cs

/-- `Field.typeAnnotations` (`src/src/lib/acli/field.ts` lines 72-84). -/
def Field.typeDirectives (col : ColumnRow) : List ParsedDirective :=
  scanDirectivesAux (col.colComment.toList.length + 1) true col.colComment.toList

/-- `Field.bigIntAnnotation` (`src/src/lib/acli/field.ts` lines 85-87). -/
def Field.bigIntDirective (col : ColumnRow) : Option ParsedDirective :=
  (Field.typeDirectives col).find? (fun a => a.kind == "bigint")

/-- `Field.setAnnotation` (`src/src/lib/acli/field.ts` lines 89-91). -/
def Field.setDirective (col : ColumnRow) : Option ParsedDirective :=
  (Field.typeDirectives col).find? (fun a => a.kind == "set")

/-- `Field.enumAnnotation` (`src/src/lib/acli/field.ts` lines 97-110):
the first `enum` directive, except that a missing, empty or
whitespace-only argument makes it count as absent. -/
def Field.enumDirective (col : ColumnRow) : Option ParsedDirective :=
  match (Field.typeDirectives col).find? (fun a => a.kind == "enum") with
  | none => none
  | some d =>
    match d.typeArgument with
    | none => none
    | some s => if jsTrim s = "" then none else some d

/-- `Field.jsonAnnotation` (`src/src/lib/acli/field.ts` lines 116-129):
same absent-when-empty rule as the `enum` directive. -/
def Field.jsonDirective (col : ColumnRow) : Option ParsedDirective :=
  match (Field.typeDirectives col).find? (fun a => a.kind == "json") with
  | none => none
  | some d =>
    match d.typeArgument with
    | none => none
    | some s => if jsTrim s = "" then none else some d

/-- `Field.mysqlBaseType` (`src/src/lib/acli/field.ts` lines 63-70). -/
def Field.mysqlBaseType (col : ColumnRow) : Option String :=
  extractBaseType col.colType

/-- `Field.isTinyIntOne` (`src/src/lib/acli/field.ts` lines 131-136). -/
def Field.isTinyIntOne (col : ColumnRow) : Bool :=
  decide (Field.mysqlBaseType col = some "tinyint") &&
  decide (jsTrim (getParenthesizedArgs col.colType "tinyint") = "1")

/-- `Field.castType` (`src/src/lib/acli/field.ts` lines 138-186),
transcribed branch by branch; the trailing `switch` over the remaining base
types is expressed as membership in the same case lists. -/
def Field.castType (col : ColumnRow) : CastType :=
  if Field.mysqlBaseType col = some "json" then CastType.json
  else if Field.mysqlBaseType col = some "bigint" then
    if (Field.bigIntDirective col).isSome then CastType.bigint else CastType.string
  else if Field.isTinyIntOne col then CastType.boolean
  else if Field.mysqlBaseType col = some "bool" ∨ Field.mysqlBaseType col = some "boolean" then
    CastType.boolean
  else if Field.mysqlBaseType col = some "set" then
    if (Field.setDirective col).isSome then CastType.set else CastType.string
  else if Field.mysqlBaseType col = some "enum" then CastType.string
  else if (∃ t ∈ ["tinyint", "int", "integer", "smallint", "mediumint", "year"],
      Field.mysqlBaseType col = some t) then CastType.int
  else if (∃ t ∈ ["float", "double", "decimal", "numeric", "real"],
      Field.mysqlBaseType col = some t) then CastType.float
  else if (∃ t ∈ ["date", "datetime", "timestamp"],
      Field.mysqlBaseType col = some t) then CastType.date
  else CastType.string

/-- JavaScript `split(",")`. -/
def splitCommaAux : List Char → List Char → List String
  | [], acc => [String.mk acc.reverse]
  | c :: cs, acc =>
    if c == ',' then String.mk acc.reverse :: splitCommaAux cs []
    else splitCommaAux cs (c :: acc)

def splitComma (s : String) : List String := splitCommaAux s.toList []

/-- JavaScript `Array.prototype.join(sep)`. -/
def joinSep (sep : String) : List String → String
  | [] => ""
  | [x] => x
  | x :: xs => x ++ sep ++ joinSep sep xs

/-- The `set` fallback element-type derivation of `Field.javascriptType`
(`src/src/lib/acli/field.ts` lines 205-210): split the parenthesized
`set(...)` list on commas, trim, drop empties, join with `|`. -/
def setTypeFromDef (typeStr : String) : String :=
  let strings := joinSep "|"
    (((splitComma (getParenthesizedArgs typeStr "set")).map jsTrim).filter
      (fun s => !s.isEmpty))
  if !strings.isEmpty then "Set<" ++ strings ++ ">" else "Set<string>"

/-- The `enum` fallback type derivation of `Field.javascriptType`
(`src/src/lib/acli/field.ts` lines 217-222). -/
def enumTypeFromDef (typeStr : String) : String :=
  let strings := joinSep "|"
    (((splitComma (getParenthesizedArgs typeStr "enum")).map jsTrim).filter
      (fun s => !s.isEmpty))
  if !strings.isEmpty then strings else "string"

/-- `Field.javascriptType` (`src/src/lib/acli/field.ts` lines 188-239),
transcribed branch by branch. In the `json` arm the argument is present by
construction of `Field.jsonDirective`, so `getD` never supplies its
default. -/
def Field.javascriptType (col : ColumnRow) : String :=
  if Field.castType col = CastType.json then
    match Field.jsonDirective col with
    | some a => jsTrim (a.typeArgument.getD "")
    | none => DEFAULT_JSON_FIELD_TYPE
  else if Field.castType col = CastType.set then
    match Field.setDirective col with
    | some a =>
      match a.typeArgument with
      | some arg => if !(jsTrim arg).isEmpty then "Set<" ++ jsTrim arg ++ ">"
                    else setTypeFromDef col.colType
      | none => setTypeFromDef col.colType
    | none => setTypeFromDef col.colType
  else if Field.mysqlBaseType col = some "enum" then
    match Field.enumDirective col with
    | some a => a.typeArgument.getD ""
    | none => enumTypeFromDef col.colType
  else
    match Field.castType col with
    | CastType.bigint => "bigint"
    | CastType.boolean => "boolean"
    | CastType.date => "Date"
    | CastType.float => "number"
    | CastType.int => "number"
    | _ => "string"

/-- A JavaScript value as it crosses the `ModelDb` API surface; `undef`
models `undefined` (e.g. a key absent from the caller-supplied `data`). -/
inductive JsValue where
  | s : String → JsValue
  | num : Int → JsValue
  | b : Bool → JsValue
  | nul : JsValue
  | undef : JsValue
deriving DecidableEq

/-- The slice of the generated `FieldDefinition` records that
`src/src/lib/api/db-classes.ts` reads (`fieldName`, `columnName`,
`isPrimaryKey`, `isAutoIncrement`, `castType`). -/
structure FieldDefinition where
  fieldName : String
  columnName : String
  isPrimaryKey : Bool
  isAutoIncrement : Bool
  castType : CastType
deriving DecidableEq

/-- Modelled from the spec: identifier quoting of `bt` from
`sql-utils.js` (not under `src/`) — the identifier is wrapped in backtick
quotes with inner backticks escaped by doubling (spec section 4.4). -/
def quoteIdent (s : String) : String :=
  "`" ++ String.mk (s.toList.flatMap (fun c => if c == '`' then [c, c] else [c])) ++ "`"

/-- `ModelDb.primaryKeys` (`src/src/lib/api/db-classes.ts` lines 168-170). -/
def ModelDb.primaryKeys (fields : List FieldDefinition) : List String :=
  (fields.filter (fun f => f.isPrimaryKey)).map (fun f => f.fieldName)

/-- `ModelDb.autoIncrementingPrimaryKey`
(`src/src/lib/api/db-classes.ts` lines 184-187): the field name of the
FIRST field with `isAutoIncrement`, with no primary-key check. -/
def ModelDb.autoIncrementingPrimaryKey (fields : List FieldDefinition) : Option String :=
  (fields.find? (fun f => f.isAutoIncrement)).map (fun f => f.fieldName)

/-- The primary-key object returned by `ModelDb.create`
(`src/src/lib/api/db-classes.ts` lines 321-333). The INSERT statement and
its execution are abstracted to the `insertId` the executed query reports
(`executedQuery.insertId as string`); `data` is the caller-supplied create
data as an association list. If an auto-incrementing field exists the
object is keyed on it with the insert id; otherwise it maps every
primary-key field name to `data[k]` (`undefined` when absent, as in the
source `reduce`). -/
def ModelDb.createReturn (fields : List FieldDefinition)
    (data : List (String × JsValue)) (insertId : String) : List (String × JsValue) :=
  match ModelDb.autoIncrementingPrimaryKey fields with
  | some k => [(k, JsValue.s insertId)]
  | none => (ModelDb.primaryKeys fields).map (fun k => (k, (data.lookup k).getD JsValue.undef))

/-- `Number.MAX_SAFE_INTEGER`. -/
def MAX_SAFE_INTEGER : Int := 2 ^ 53 - 1

/-- `ModelDb.countBigInt` (`src/src/lib/api/db-classes.ts` lines 274-283):
the `ct` value of the first row the transport returns (a MySQL `COUNT(*)`,
cast to `bigint`), or `0n` when there is no row. Beyond transport failures
(handled in `BaseDb.execute`) the operation has no failure path, which the
`Except` result type makes explicit. -/
def ModelDb.countBigInt (ctRow : Option Int) : Except String Int :=
  Except.ok (ctRow.getD 0)

/-- `ModelDb.count` (`src/src/lib/api/db-classes.ts` lines 284-292):
`countBigInt`, then an overflow guard against `Number.MAX_SAFE_INTEGER`;
within the guard `Number(ct)` is exact, so the value passes unchanged. -/
def ModelDb.count (ctRow : Option Int) : Except String Int :=
  match ModelDb.countBigInt ctRow with
  | Except.error e => Except.error e
  | Except.ok ct =>
    if ct > MAX_SAFE_INTEGER then
      Except.error "count returned a number greater than Number.MAX_SAFE_INTEGER"
    else Except.ok ct

/-- The `select` input of `ModelDb.findMany`: an explicit field-name list,
the literal string `all`, or anything else (`undefined`), which selects
`*`. An empty list also falls through to `*` in the source
(`Array.isArray(input.select) && input.select.length > 0`). -/
inductive SelectInput where
  | star
  | all
  | cols (names : List String)
deriving DecidableEq

/-- `getSelectForFieldName` inside `ModelDb.findMany`
(`src/src/lib/api/db-classes.ts` lines 198-208): unknown field names fail
with the descriptor-validation error before any statement exists. -/
def ModelDb.getSelectForFieldName (fields : List FieldDefinition)
    (tableName fieldName : String) : Except String String :=
  match fields.find? (fun f => f.fieldName == fieldName) with
  | none => Except.error ("Invalid select: the field named " ++ fieldName ++ " does not exist.")
  | some f => Except.ok (quoteIdent tableName ++ "." ++ quoteIdent f.columnName
      ++ " as " ++ quoteIdent f.fieldName)

/-- JavaScript `Array.prototype.map` over a callback that can throw,
sequential with the first failure aborting (the behavior of
`input.select.map(getSelectForFieldName)` in the source). -/
def mapSelect (g : String → Except String String) : List String → Except String (List String)
  | [] => Except.ok []
  | x :: xs =>
    match g x with
    | Except.error e => Except.error e
    | Except.ok v =>
      match mapSelect g xs with
      | Except.error e => Except.error e
      | Except.ok vs => Except.ok (v :: vs)

/-- The select-clause construction of `ModelDb.findMany`
(`src/src/lib/api/db-classes.ts` lines 209-220). -/
def ModelDb.buildSelect (fields : List FieldDefinition) (tableName : String) :
    SelectInput → Except String (List String)
  | SelectInput.cols names =>
    if names.length > 0 then mapSelect (ModelDb.getSelectForFieldName fields tableName) names
    else Except.ok ["*"]
  | SelectInput.all =>
    mapSelect (ModelDb.getSelectForFieldName fields tableName)
      ((fields.map (fun f => f.fieldName)))
  | SelectInput.star => Except.ok ["*"]

/-- The observable result of a `ModelDb.findMany` call: the SQL text handed
to the transport (`none` when nothing was executed) and the outcome. -/
structure FindManyResult where
  executedQuery : Option String
  outcome : Except String (List (List (String × JsValue)))

/-- `ModelDb.findMany` (`src/src/lib/api/db-classes.ts` lines 189-233).
The `where`/`orderBy`/`limit` fragments are produced by `sql-utils.js`
helpers (not under `src/`) before the select clause is validated; they are
taken here as opaque pre-built strings, and the transport reply as
`transportRows`. A select-validation failure aborts before the SELECT
statement is formed, so nothing reaches the transport. -/
def ModelDb.findMany (fields : List FieldDefinition) (tableName : String)
    (select : SelectInput) (whereSql orderBySql limitSql : String)
    (transportRows : List (List (String × JsValue))) : FindManyResult :=
  match ModelDb.buildSelect fields tableName select with
  | Except.error e => ⟨none, Except.error e⟩
  | Except.ok items =>
    ⟨some ("SELECT " ++ joinSep "," items ++ " FROM " ++ quoteIdent tableName
        ++ " " ++ whereSql ++ " " ++ orderBySql ++ " " ++ limitSql),
     Except.ok transportRows⟩

/-- `ExecuteError` (`src/src/lib/api/db-classes.ts` lines 24-28): the
object handed to the injected error logger, carrying the original driver
error and the statement (`query`). -/
structure ExecuteErrorRec where
  originalError : String
  query : String
deriving DecidableEq

/-- What the underlying transport does with one statement: succeed with a
driver result, or throw with some driver error text. -/
inductive TransportOutcome (α : Type) where
  | success : α → TransportOutcome α
  | failure : String → TransportOutcome α

/-- The observable result of `BaseDb.execute`: what was passed to the
error-logging hook (if anything) and what the caller sees. -/
structure ExecuteResult (α : Type) where
  loggedError : Option ExecuteErrorRec
  result : Except String α

/-- `BaseDb.execute` (`src/src/lib/api/db-classes.ts` lines 79-98): on
transport success the driver result is returned; on a transport throw, an
`ExecuteError` wrapping the original error and the statement is passed to
the error logger, and the error re-thrown to the caller is the constant
`Internal server error.` -/
def BaseDb.execute (α : Type) (query : String) (transport : TransportOutcome α) :
    ExecuteResult α :=
  match transport with
  | TransportOutcome.success v => ⟨none, Except.ok v⟩
  | TransportOutcome.failure err =>
    ⟨some ⟨err, query⟩, Except.error "Internal server error."⟩

/-! Shared helper lemmas. -/

theorem find?_eq_head?_filter {α : Type} (p : α → Bool) (l : List α) :
    l.find? p = (l.filter p).head? := by
  induction l with
  | nil => rfl
  | cons a t ih =>
    by_cases h : p a = true
    · rw [List.find?_cons_of_pos _ h, List.filter_cons_of_pos h, List.head?_cons]
    · rw [List.find?_cons_of_neg _ (by simp [h]), List.filter_cons_of_neg (by simp [h]), ih]

theorem mapSelect_error (g : String → Except String String) :
    ∀ (l : List String) (x : String), x ∈ l → (∃ e0, g x = Except.error e0) →
      ∃ e, mapSelect g l = Except.error e := by
  intro l
  induction l with
  | nil => intro x hx; simp at hx
  | cons a t ih =>
    intro x hx hgx
    rcases List.mem_cons.mp hx with h | h
    · subst h
      obtain ⟨e0, he0⟩ := hgx
      exact ⟨e0, by simp [mapSelect, he0]⟩
    · cases hga : g a with
      | error e => exact ⟨e, by simp [mapSelect, hga]⟩
      | ok v =>
        obtain ⟨e, he⟩ := ih x h hgx
        exact ⟨e, by simp [mapSelect, hga, he]⟩

theorem Field.castType_of_set (col : ColumnRow)
    (hs : Field.mysqlBaseType col = some "set") :
    Field.castType col =
      (if (Field.setDirective col).isSome then CastType.set else CastType.string) := by
  simp [Field.castType, Field.isTinyIntOne, hs]

theorem Field.castType_of_enum (col : ColumnRow)
    (he : Field.mysqlBaseType col = some "enum") :
    Field.castType col = CastType.string := by
  simp [Field.castType, Field.isTinyIntOne, he]

theorem Field.castType_of_json (col : ColumnRow)
    (hj : Field.mysqlBaseType col = some "json") :
    Field.castType col = CastType.json := by
  simp [Field.castType, hj]

/-! Claim theorems. -/

/-- Claim C1: for every column whose extracted base MySQL type is `bigint`,
the resolved cast kind is `bigint` if and only if
`config.typeBigIntAsString === false` or a `@bigint` directive is present in
the column comment; otherwise the cast kind is `string`. -/
theorem claim1_bigint_castType (col : ColumnRow) (settings : PartialSettings)
    (hb : getFieldKnownMySQLType col = some "bigint") :
    (resolvedCastType col settings = CastType.bigint ↔
      (settings.typeBigIntAsString = some false ∨
        hasColumnCommentDirective "bigint" col = true))
    ∧ (¬(settings.typeBigIntAsString = some false ∨
          hasColumnCommentDirective "bigint" col = true) →
        resolvedCastType col settings = CastType.string) := by
  unfold resolvedCastType
  rw [hb]
  by_cases h1 : settings.typeBigIntAsString = some false <;>
    by_cases h2 : hasColumnCommentDirective "bigint" col = true <;>
      simp [getFieldCastType, h1, h2]

/-- Witness for C1: a plain `bigint unsigned` column under default settings
resolves to `string`; the same column with `@bigint` in the comment, or under
`typeBigIntAsString: false`, resolves to `bigint`. -/
theorem claim1_bigint_castType_witness :
    resolvedCastType ⟨"n", "bigint unsigned", "NO", "", none, "", "@bigint"⟩
        ⟨none, none⟩ = CastType.bigint
    ∧ resolvedCastType ⟨"n", "bigint unsigned", "NO", "", none, "", ""⟩
        ⟨none, none⟩ = CastType.string
    ∧ resolvedCastType ⟨"n", "bigint unsigned", "NO", "", none, "", ""⟩
        ⟨some false, none⟩ = CastType.bigint := by
  refine ⟨?_, ?_, ?_⟩
  · exact (claim1_bigint_castType _ _ (by decide)).1.mpr (Or.inr (by decide))
  · exact (claim1_bigint_castType _ _ (by decide)).2 (by decide)
  · exact (claim1_bigint_castType _ _ (by decide)).1.mpr (Or.inl (by decide))

/-- Claim C4: a column declared exactly `tinyint(1)` resolves to `boolean`
when `typeTinyIntOneAsBoolean` is unset or true and to `int` when that flag
is false; every other column whose extracted base type is `tinyint` (for
example `tinyint(2)` or bare `tinyint`) resolves to `int` regardless of the
flag. -/
theorem claim4_tinyint_one_castType (col : ColumnRow) (settings : PartialSettings) :
    (col.colType = "tinyint(1)" →
      resolvedCastType col settings =
        (if settings.typeTinyIntOneAsBoolean = some false then CastType.int
         else CastType.boolean))
    ∧ (getFieldKnownMySQLType col = some "tinyint" →
        jsTrim (getParenthesizedArgs col.colType "tinyint") ≠ "1" →
        resolvedCastType col settings = CastType.int) := by
  constructor
  · intro h
    have hk : getFieldKnownMySQLType col = some "tinyint" := by
      simp only [getFieldKnownMySQLType]
      rw [h]
      decide
    have ha : jsTrim (getParenthesizedArgs col.colType "tinyint") = "1" := by
      rw [h]
      decide
    unfold resolvedCastType
    rw [hk]
    simp [getFieldCastType, ha]
  · intro hk hne
    unfold resolvedCastType
    rw [hk]
    simp [getFieldCastType, hne]

/-- Witness for C4: `tinyint(1)` is `boolean` by default and `int` under
`typeTinyIntOneAsBoolean: false`; `tinyint(2)` and bare `tinyint` are `int`
either way. -/
theorem claim4_tinyint_one_castType_witness :
    resolvedCastType ⟨"b", "tinyint(1)", "NO", "", none, "", ""⟩ ⟨none, none⟩
        = CastType.boolean
    ∧ resolvedCastType ⟨"b", "tinyint(1)", "NO", "", none, "", ""⟩ ⟨none, some false⟩
        = CastType.int
    ∧ resolvedCastType ⟨"b", "tinyint(2)", "NO", "", none, "", ""⟩ ⟨none, some false⟩
        = CastType.int
    ∧ resolvedCastType ⟨"b", "tinyint", "NO", "", none, "", ""⟩ ⟨none, none⟩
        = CastType.int := by
  refine ⟨?_, ?_, ?_, ?_⟩
  · exact ((claim4_tinyint_one_castType _ _).1 rfl).trans (by decide)
  · exact ((claim4_tinyint_one_castType _ _).1 rfl).trans (by decide)
  · exact (claim4_tinyint_one_castType _ _).2 (by decide) (by decide)
  · exact (claim4_tinyint_one_castType _ _).2 (by decide) (by decide)

/-- The single-quote character (codepoint 39), used to build witness column
type definitions containing quoted literals. -/
def sqChar : Char := Char.ofNat 39

/-- Wrap a string in single quotes, as MySQL set/enum definitions do. -/
def quoted (s : String) : String := String.mk [sqChar] ++ s ++ String.mk [sqChar]

/-- Claim C2: for every column whose extracted base MySQL type is `set`, the
cast kind is `set` if and only if a `@set` directive (with or without
argument) is present in the comment; with no directive the cast kind is
`string`; and with a bare `@set` (no argument) the semantic element type is
derived from the set definition list of the column itself. -/
theorem claim2_set_castType (col : ColumnRow)
    (hs : Field.mysqlBaseType col = some "set") :
    (Field.castType col = CastType.set ↔ (Field.setDirective col).isSome = true)
    ∧ ((Field.setDirective col).isSome = false → Field.castType col = CastType.string)
    ∧ (∀ d, Field.setDirective col = some d → d.typeArgument = none →
        Field.javascriptType col = setTypeFromDef col.colType) := by
  have hc := Field.castType_of_set col hs
  refine ⟨?_, ?_, ?_⟩
  · rw [hc]
    by_cases hd : (Field.setDirective col).isSome = true <;> simp [hd]
  · intro hd
    rw [hc]
    simp [hd]
  · intro d hd harg
    have hset : Field.castType col = CastType.set := by
      rw [hc]
      simp [hd]
    simp [Field.javascriptType, hset, hd, harg]

/-- Witness for C2: a column of type set(quoted a, quoted b) with no
directive has cast kind `string`; with a bare `@set` it has cast kind `set`
and semantic element type the disjunction of the two quoted literals. -/
theorem claim2_set_castType_witness :
    Field.castType ⟨"size", "set(" ++ quoted "a" ++ "," ++ quoted "b" ++ ")",
        "NO", "", none, "", "@set"⟩ = CastType.set
    ∧ Field.castType ⟨"size", "set(" ++ quoted "a" ++ "," ++ quoted "b" ++ ")",
        "NO", "", none, "", ""⟩ = CastType.string
    ∧ Field.javascriptType ⟨"size", "set(" ++ quoted "a" ++ "," ++ quoted "b" ++ ")",
        "NO", "", none, "", "@set"⟩ = "Set<" ++ quoted "a" ++ "|" ++ quoted "b" ++ ">" := by
  refine ⟨?_, ?_, ?_⟩
  · exact (claim2_set_castType _ (by decide)).1.mpr (by decide)
  · exact (claim2_set_castType _ (by decide)).2.1 (by decide)
  · exact ((claim2_set_castType _ (by decide)).2.2 ⟨"set", none⟩ (by decide) rfl).trans
      (by decide)

/-- Claim C3: for every column whose extracted base MySQL type is `enum`,
the cast kind is `string` (the `Field` resolver takes no configuration, and
the comment — hence any directive — cannot change this branch). -/
theorem claim3_enum_castType (col : ColumnRow)
    (he : Field.mysqlBaseType col = some "enum") :
    Field.castType col = CastType.string :=
  Field.castType_of_enum col he

/-- Witness for C3: a column of type enum(quoted a, quoted b) keeps cast
kind `string` even with an `@enum(MyType)` directive present. -/
theorem claim3_enum_castType_witness :
    Field.castType ⟨"size", "enum(" ++ quoted "a" ++ "," ++ quoted "b" ++ ")",
        "NO", "", none, "", "@enum(MyType)"⟩ = CastType.string :=
  claim3_enum_castType _ (by decide)

/-- Claim C5: a `@json` or `@enum` directive whose argument is missing or
(after trimming) empty is treated as absent: the effective directive is
`none`, the semantic type of a `json` column falls back to the configured
default JSON type, and the semantic type of an `enum` column falls back to
the disjunction derived from the literal list of the column definition. -/
theorem claim5_empty_directive_absent (col : ColumnRow) :
    (∀ d, (Field.typeDirectives col).find? (fun a => a.kind == "json") = some d →
      jsTrim (d.typeArgument.getD "") = "" →
      Field.jsonDirective col = none
      ∧ (Field.mysqlBaseType col = some "json" →
          Field.javascriptType col = DEFAULT_JSON_FIELD_TYPE))
    ∧ (∀ d, (Field.typeDirectives col).find? (fun a => a.kind == "enum") = some d →
      jsTrim (d.typeArgument.getD "") = "" →
      Field.enumDirective col = none
      ∧ (Field.mysqlBaseType col = some "enum" →
          Field.javascriptType col = enumTypeFromDef col.colType)) := by
  constructor
  · intro d hfind hempt
    have hj : Field.jsonDirective col = none := by
      unfold Field.jsonDirective
      rw [hfind]
      cases harg : d.typeArgument with
      | none => simp [harg]
      | some s =>
        rw [harg] at hempt
        simp at hempt
        simp [harg, hempt]
    refine ⟨hj, fun hbase => ?_⟩
    have hc := Field.castType_of_json col hbase
    simp [Field.javascriptType, hc, hj]
  · intro d hfind hempt
    have hen : Field.enumDirective col = none := by
      unfold Field.enumDirective
      rw [hfind]
      cases harg : d.typeArgument with
      | none => simp [harg]
      | some s =>
        rw [harg] at hempt
        simp at hempt
        simp [harg, hempt]
    refine ⟨hen, fun hbase => ?_⟩
    have hc := Field.castType_of_enum col hbase
    simp [Field.javascriptType, hc, hbase, hen]

/-- Witness for C5: a `json` column with comment `@json()` falls back to the
default JSON type, and a column of type enum(quoted a, quoted b) with a
bare `@enum` falls back to the quoted-literal disjunction from its
definition. -/
theorem claim5_empty_directive_absent_witness :
    Field.jsonDirective ⟨"d", "json", "NO", "", none, "", "@json()"⟩ = none
    ∧ Field.javascriptType ⟨"d", "json", "NO", "", none, "", "@json()"⟩
        = DEFAULT_JSON_FIELD_TYPE
    ∧ Field.javascriptType ⟨"size", "enum(" ++ quoted "a" ++ "," ++ quoted "b" ++ ")",
        "NO", "", none, "", "@enum"⟩ = quoted "a" ++ "|" ++ quoted "b" := by
  refine ⟨?_, ?_, ?_⟩
  · exact ((claim5_empty_directive_absent _).1 ⟨"json", some ""⟩ (by decide) (by decide)).1
  · exact ((claim5_empty_directive_absent _).1 ⟨"json", some ""⟩ (by decide) (by decide)).2
      (by decide)
  · exact (((claim5_empty_directive_absent _).2 ⟨"enum", none⟩ (by decide) (by decide)).2
      (by decide)).trans (by decide)


/-- Claim C6: `create` on a model whose single auto-increment field is the
single primary-key field `id` returns `{id: <generated insert id>}`; on a
model with no auto-increment field it returns every primary-key field name
mapped to the caller-supplied `data` value for that field. -/
theorem claim6_create_primary_key (fields : List FieldDefinition)
    (data : List (String × JsValue)) (insertId : String) :
    (((fields.filter (fun f => f.isAutoIncrement)).map (fun f => f.fieldName) = ["id"]) →
      ((fields.filter (fun f => f.isPrimaryKey)).map (fun f => f.fieldName) = ["id"]) →
      ModelDb.createReturn fields data insertId = [("id", JsValue.s insertId)])
    ∧ ((∀ f ∈ fields, f.isAutoIncrement = false) →
        ModelDb.createReturn fields data insertId =
          (ModelDb.primaryKeys fields).map
            (fun k => (k, (data.lookup k).getD JsValue.undef))) := by
  constructor
  · intro hai _hpk
    have hfind : fields.find? (fun f => f.isAutoIncrement) =
        (fields.filter (fun f => f.isAutoIncrement)).head? :=
      find?_eq_head?_filter _ _
    cases hfl : fields.filter (fun f => f.isAutoIncrement) with
    | nil => rw [hfl] at hai; simp at hai
    | cons f rest =>
      rw [hfl] at hai hfind
      simp only [List.map_cons, List.cons.injEq] at hai
      obtain ⟨hname, hrest⟩ := hai
      simp [ModelDb.createReturn, ModelDb.autoIncrementingPrimaryKey, hfind, hname]
  · intro hnone
    have hfind : fields.find? (fun f => f.isAutoIncrement) = none :=
      List.find?_eq_none.mpr (fun f hf => by simp [hnone f hf])
    simp [ModelDb.createReturn, ModelDb.autoIncrementingPrimaryKey, hfind]

/-- Witness for C6: a model with auto-increment primary key `id` returns the
insert id under `id`; a model with composite non-auto-increment primary key
`{a, b}` returns the caller-supplied `a` and `b` values. -/
theorem claim6_create_primary_key_witness :
    ModelDb.createReturn
        [⟨"id", "id", true, true, CastType.bigint⟩,
         ⟨"name", "name", false, false, CastType.string⟩]
        [("name", JsValue.s "x")] "33" = [("id", JsValue.s "33")]
    ∧ ModelDb.createReturn
        [⟨"a", "a", true, false, CastType.int⟩,
         ⟨"b", "b", true, false, CastType.int⟩,
         ⟨"name", "name", false, false, CastType.string⟩]
        [("a", JsValue.num 1), ("b", JsValue.num 2), ("name", JsValue.s "x")] "0"
      = [("a", JsValue.num 1), ("b", JsValue.num 2)] := by
  constructor
  · exact (claim6_create_primary_key _ _ _).1 (by decide) (by decide)
  · exact ((claim6_create_primary_key _ _ _).2 (by decide)).trans (by decide)

/-- Claim C7: `count` fails with the overflow error exactly when the
transported `COUNT(*)` value exceeds `Number.MAX_SAFE_INTEGER`, and returns
the value unchanged otherwise; `countBigInt` never fails, whatever the
count value. -/
theorem claim7_count_overflow (ctRow : Option Int) :
    (ModelDb.count ctRow =
        Except.error "count returned a number greater than Number.MAX_SAFE_INTEGER" ↔
      ctRow.getD 0 > MAX_SAFE_INTEGER)
    ∧ (ctRow.getD 0 ≤ MAX_SAFE_INTEGER → ModelDb.count ctRow = Except.ok (ctRow.getD 0))
    ∧ (∀ e, ModelDb.countBigInt ctRow ≠ Except.error e) := by
  by_cases h : ctRow.getD 0 > MAX_SAFE_INTEGER
  · refine ⟨by simp [ModelDb.count, ModelDb.countBigInt, h], fun hle => absurd h (by omega),
      fun e => by simp [ModelDb.countBigInt]⟩
  · refine ⟨by simp [ModelDb.count, ModelDb.countBigInt, h], fun _hle => by
      simp [ModelDb.count, ModelDb.countBigInt, h], fun e => by simp [ModelDb.countBigInt]⟩

/-- Witness for C7: a count of `2 ^ 53` overflows `count` while a count of
`5` is returned as-is. -/
theorem claim7_count_overflow_witness :
    ModelDb.count (some (2 ^ 53)) =
      Except.error "count returned a number greater than Number.MAX_SAFE_INTEGER"
    ∧ ModelDb.count (some 5) = Except.ok 5 := by
  constructor
  · exact (claim7_count_overflow (some (2 ^ 53))).1.mpr (by decide)
  · exact ((claim7_count_overflow (some 5)).2.1 (by decide)).trans rfl

/-- Claim C8: a `findMany` whose `select` is a non-empty list containing a
name that is not a field of the model fails with the descriptor-validation
error and executes nothing: no query text reaches the transport. -/
theorem claim8_findMany_unknown_select (fields : List FieldDefinition)
    (tableName whereSql orderBySql limitSql : String)
    (transportRows : List (List (String × JsValue)))
    (names : List String) (x : String)
    (hne : names ≠ []) (hx : x ∈ names)
    (hunknown : ∀ f ∈ fields, f.fieldName ≠ x) :
    (ModelDb.findMany fields tableName (SelectInput.cols names)
        whereSql orderBySql limitSql transportRows).executedQuery = none
    ∧ ∃ e, (ModelDb.findMany fields tableName (SelectInput.cols names)
        whereSql orderBySql limitSql transportRows).outcome = Except.error e := by
  have hfind : fields.find? (fun f => f.fieldName == x) = none :=
    List.find?_eq_none.mpr (fun f hf => by simp [hunknown f hf])
  have hgx : ModelDb.getSelectForFieldName fields tableName x =
      Except.error ("Invalid select: the field named " ++ x ++ " does not exist.") := by
    simp [ModelDb.getSelectForFieldName, hfind]
  obtain ⟨e, he⟩ := mapSelect_error (ModelDb.getSelectForFieldName fields tableName)
    names x hx ⟨_, hgx⟩
  have hlen : names.length > 0 := List.length_pos.mpr hne
  have hbuild : ModelDb.buildSelect fields tableName (SelectInput.cols names) =
      Except.error e := by
    simp [ModelDb.buildSelect, hlen, he]
  refine ⟨?_, ⟨e, ?_⟩⟩ <;> simp [ModelDb.findMany, hbuild]

/-- Witness for C8: selecting the unknown field `x` from a one-field model
executes nothing and yields an error. -/
theorem claim8_findMany_unknown_select_witness :
    (ModelDb.findMany [⟨"id", "id", true, true, CastType.bigint⟩] "t"
        (SelectInput.cols ["x"]) "" "" "" []).executedQuery = none
    ∧ ∃ e, (ModelDb.findMany [⟨"id", "id", true, true, CastType.bigint⟩] "t"
        (SelectInput.cols ["x"]) "" "" "" []).outcome = Except.error e :=
  claim8_findMany_unknown_select [⟨"id", "id", true, true, CastType.bigint⟩]
    "t" "" "" "" [] ["x"] "x" (by decide) (by decide) (by decide)

/-- Claim C9: when the transport execute call throws, the injected
error-logging hook receives the original error together with the statement,
and the error re-thrown to the caller is the constant, opaque
`Internal server error.` — the same for every statement and every driver
error, so it carries neither the SQL text nor the driver error text. -/
theorem claim9_execute_opaque_error (α : Type) (query err : String) :
    (BaseDb.execute α query (TransportOutcome.failure err)).loggedError =
      some ⟨err, query⟩
    ∧ (BaseDb.execute α query (TransportOutcome.failure err)).result =
      Except.error "Internal server error."
    ∧ (∀ q2 e2 : String,
        (BaseDb.execute α q2 (TransportOutcome.failure e2)).result =
        (BaseDb.execute α query (TransportOutcome.failure err)).result) :=
  ⟨rfl, rfl, fun _ _ => rfl⟩

/-- Claim C10: whenever any field of the model has `isAutoIncrement`,
`create` keys its returned record on the first such field — with no check
that it is a primary-key field — and the caller-supplied primary-key values
from `data` are used only when no field is auto-incrementing. -/
theorem claim10_create_first_auto_increment (fields : List FieldDefinition)
    (data : List (String × JsValue)) (insertId : String) :
    (∀ f, fields.find? (fun g => g.isAutoIncrement) = some f →
      ModelDb.createReturn fields data insertId = [(f.fieldName, JsValue.s insertId)])
    ∧ (fields.find? (fun g => g.isAutoIncrement) = none →
      ModelDb.createReturn fields data insertId =
        (ModelDb.primaryKeys fields).map
          (fun k => (k, (data.lookup k).getD JsValue.undef))) := by
  constructor
  · intro f hf
    simp [ModelDb.createReturn, ModelDb.autoIncrementingPrimaryKey, hf]
  · intro hnone
    simp [ModelDb.createReturn, ModelDb.autoIncrementingPrimaryKey, hnone]

/-- Witness for C10: in a model whose auto-increment field `ordinal` is NOT
a primary-key field, `create` still keys its result on `ordinal` with the
insert id, ignoring the caller-supplied value of the true primary key. -/
theorem claim10_create_first_auto_increment_witness :
    ModelDb.createReturn
        [⟨"ordinal", "ordinal", false, true, CastType.int⟩,
         ⟨"id", "id", true, false, CastType.string⟩]
        [("id", JsValue.s "k")] "9" = [("ordinal", JsValue.s "9")] :=
  (claim10_create_first_auto_increment _ _ _).1
    ⟨"ordinal", "ordinal", false, true, CastType.int⟩ (by decide)

end Frieda
